import Mathlib

/-!
# s2n random-number core (`utils/s2n_random.c`)

A shallow embedding of `utils/s2n_random.c` and proofs about it.

* The process-wide statics `entropy_fd` and `original_rand_method`, together with
  OpenSSL's active `RAND_METHOD` pointer, are fields of `World`.
* The entropy device is an explicit environment: `World.dev` is the list of results
  that the coming `read(2)` calls on the descriptor will give, and `World.reads` is the
  trace of the `read(2)` calls issued so far.  A call that is still inside a retry loop
  when the list is exhausted has not returned; this is the result `none`.
* The results of `open(2)` and `close(2)` are arguments of `s2n_init` and `s2n_cleanup`.
* `int` and `unsigned int` are 32 bits wide.
-/

namespace S2N

/-! ## Constants of `<limits.h>` and integer conversions -/

/-- The value of `UINT_MAX` for a 32-bit `unsigned int`. -/
def UINT_MAX : Nat := 2 ^ 32 - 1

/-- The value of `INT_MAX` for a 32-bit `int`. -/
def INT_MAX : Int := 2 ^ 31 - 1

/-- Conversion of an `int` to `unsigned int` / `uint32_t`. -/
def to_uint (x : Int) : Nat := (x % 2 ^ 32).toNat

/-- Conversion of an `unsigned int` to `int` (two's complement). -/
def to_int (x : Nat) : Int :=
  if x % 2 ^ 32 < 2 ^ 31 then ((x % 2 ^ 32 : Nat) : Int) else ((x % 2 ^ 32 : Nat) : Int) - 2 ^ 32

/-! ## Data model -/

/-- One result of `read(entropy_fd, data, n)`: the value assigned to `int r` and the
bytes the call stored at `data`. -/
structure ReadResult where
  ret : Int
  bytes : List UInt8
deriving DecidableEq, Repr

/-- One issued `read(2)` call: descriptor, offset of the destination pointer from the
start of the caller's buffer, requested count, and the result stored in `r`. -/
structure ReadCall where
  fd : Int
  offset : Nat
  count : Nat
  ret : Int
deriving DecidableEq, Repr

/-- A `const RAND_METHOD *`. -/
inductive RandMethodPtr where
  | null
  | addr_s2n_openssl_rand_method
  | external (id : Nat)
deriving DecidableEq, Repr

/-- Process state: the two statics of `s2n_random.c`, OpenSSL's active provider, and the
entropy device with the trace of reads issued on it. -/
structure World where
  entropy_fd : Int
  original_rand_method : RandMethodPtr
  rand_method : RandMethodPtr
  dev : List ReadResult
  reads : List ReadCall
deriving DecidableEq, Repr

/-- The state at program start: `static int entropy_fd = -1;` and a zero-initialised
`original_rand_method`; `p` is the provider active in OpenSSL. -/
def World.initial (p : RandMethodPtr) (dev : List ReadResult) : World :=
  { entropy_fd := -1, original_rand_method := RandMethodPtr.null, rand_method := p,
    dev := dev, reads := [] }

/-- Return value of a function together with the message stored through `err`, if any. -/
abbrev Status := Int × Option String

/-! ## The external library and the safety header -/

/-- Modelled from the spec: `RAND_get_rand_method` of the external crypto library, the
"get current provider" operation. -/
def RAND_get_rand_method (w : World) : RandMethodPtr := w.rand_method

/-- Modelled from the spec: `RAND_set_rand_method` of the external crypto library, the
"set current provider" operation. -/
def RAND_set_rand_method (m : RandMethodPtr) (w : World) : World :=
  { w with rand_method := m }

/-- Modelled from the spec: the macro `GUARD(x)` of `utils/s2n_safety.h`, which is not
among the sources at hand; it makes the enclosing function return `-1` when `x` failed,
that is when `x` is negative. -/
def GUARD_returns (x : Int) : Bool := decide (x < 0)

/-! ## `s2n_get_random_data` -/

/-- Store `bytes` at offset `off` of the buffer `data`. -/
def store (data : List UInt8) (off : Nat) (bytes : List UInt8) : List UInt8 :=
  data.take off ++ bytes ++ data.drop (off + bytes.length)

/-- The `while (n)` loop of `s2n_get_random_data`; `off` is the distance `data` has been
advanced.  Returns the buffer, the remaining device results and the extended trace. -/
def s2n_get_random_data_loop (fd : Int) :
    List ReadResult → List UInt8 → Nat → Nat → List ReadCall →
      Option (List UInt8 × List ReadResult × List ReadCall)
  | dev, data, _, 0, reads => some (data, dev, reads)
  | [], _, _, _ + 1, _ => none
  | res :: dev, data, off, n + 1, reads =>
    let r := res.ret
    let reads := reads ++ [{ fd := fd, offset := off, count := n + 1, ret := r }]
    if r ≤ 0 then
      -- sleep(1); continue;
      s2n_get_random_data_loop fd dev data off (n + 1) reads
    else
      s2n_get_random_data_loop fd dev (store data off res.bytes) (off + r.toNat)
        (to_uint (((n + 1 : Nat) : Int) - r)) reads

/-- The function `s2n_get_random_data(data, n, err)`. -/
def s2n_get_random_data (data : List UInt8) (n : Nat) (w : World) :
    Option (Status × List UInt8 × World) :=
  if w.entropy_fd = -1 then
    some ((-1, some "s2n_get_random_data() called before s2n_init()"), data, w)
  else
    match s2n_get_random_data_loop w.entropy_fd w.dev data 0 n w.reads with
    | none => none
    | some (data, dev, reads) => some ((0, none), data, { w with dev := dev, reads := reads })

/-! ## `s2n_stuffer_write_random_data` -/

/-- The `while (n)` loop of `s2n_stuffer_write_random_data`.  The stuffer type `σ` and
`s2n_stuffer_recv_from_fd` (argument `recv`: stuffer, descriptor, count, world to result,
message, stuffer, world) belong to the stuffer module.  The first argument bounds the
number of iterations; `none` means the loop is still running after that many. -/
def s2n_stuffer_write_random_data_loop {σ : Type}
    (recv : σ → Int → Nat → World → Int × Option String × σ × World) :
    Nat → σ → Nat → Option String → World → Option (Status × σ × World)
  | _, stuffer, 0, err, w => some ((0, err), stuffer, w)
  | 0, _, _ + 1, _, _ => none
  | fuel + 1, stuffer, n + 1, err, w =>
    match recv stuffer w.entropy_fd (n + 1) w with
    | (r, e, stuffer, w) =>
      let err := if e.isSome then e else err
      if r ≤ 0 then
        -- sleep(1); continue;
        s2n_stuffer_write_random_data_loop recv fuel stuffer (n + 1) err w
      else
        s2n_stuffer_write_random_data_loop recv fuel stuffer
          (to_uint (((n + 1 : Nat) : Int) - r)) err w

/-- The function `s2n_stuffer_write_random_data(stuffer, n, err)`. -/
def s2n_stuffer_write_random_data {σ : Type}
    (recv : σ → Int → Nat → World → Int × Option String × σ × World)
    (fuel : Nat) (stuffer : σ) (n : Nat) (w : World) : Option (Status × σ × World) :=
  if w.entropy_fd = -1 then
    some ((-1, some "s2n_get_random_data() called before s2n_init()"), stuffer, w)
  else
    s2n_stuffer_write_random_data_loop recv fuel stuffer n none w

/-! ## `s2n_random` -/

/-- The value of an `unsigned int` whose four bytes are `b` (little-endian host). -/
def load_uint (b : List UInt8) : Nat :=
  (b.getD 0 0).toNat + 2 ^ 8 * (b.getD 1 0).toNat + 2 ^ 16 * (b.getD 2 0).toNat
    + 2 ^ 24 * (b.getD 3 0).toNat

/-- The acceptance test `r < (UINT_MAX - (UINT_MAX % max))` of `s2n_random`. -/
def s2n_random_accepts (max : Int) (r : Nat) : Bool :=
  decide (r < UINT_MAX - UINT_MAX % to_uint max)

/-- The `while(1)` loop of `s2n_random`; `r` holds the bytes of the local
`unsigned int r`.  The first argument bounds the number of iterations. -/
def s2n_random_loop (max : Int) : Nat → List UInt8 → World → Option (Status × World)
  | 0, _, _ => none
  | fuel + 1, r, w =>
    match s2n_get_random_data r 4 w with
    | none => none
    | some ((x, e), r, w) =>
      if GUARD_returns x then some ((-1, e), w)
      else if s2n_random_accepts max (load_uint r) then
        some ((to_int (load_uint r % to_uint max), none), w)
      else s2n_random_loop max fuel r w

/-- The function `s2n_random(max, err)`; `r0` is the indeterminate initial content of the
local `r`.  Every iteration that does not leave the loop consumes a device result, so
`w.dev.length + 1` iterations are never used up. -/
def s2n_random (max : Int) (r0 : List UInt8) (w : World) : Option (Status × World) :=
  if max ≤ 0 then some ((-1, some "max must be a positive value"), w)
  else s2n_random_loop max (w.dev.length + 1) r0 w

/-! ## The OpenSSL provider -/

/-- The function `openssl_compat_rand(buf, num)`. -/
def openssl_compat_rand (buf : List UInt8) (num : Int) (w : World) :
    Option (Int × List UInt8 × World) :=
  match s2n_get_random_data buf (to_uint num) w with
  | none => none
  | some ((r, _), buf, w) => if r < 0 then some (0, buf, w) else some (1, buf, w)

/-- The function `openssl_compat_seed(buf, num)`. -/
def openssl_compat_seed (_buf : List UInt8) (_num : Int) (w : World) : World := w

/-- The function `openssl_compat_status()`. -/
def openssl_compat_status (_w : World) : Int := 1

/-- The function `openssl_compat_cleanup()`. -/
def openssl_compat_cleanup (w : World) : World := w

/-- The function `openssl_compat_add(buf, num, entropy)`. -/
def openssl_compat_add (_buf : List UInt8) (_num : Int) (_entropy : Float) (w : World) :
    World := w

/-- OpenSSL's `RAND_METHOD` table of callbacks. -/
structure RAND_METHOD where
  seed : List UInt8 → Int → World → World
  bytes : List UInt8 → Int → World → Option (Int × List UInt8 × World)
  cleanup : World → World
  add : List UInt8 → Int → Float → World → World
  pseudorand : List UInt8 → Int → World → Option (Int × List UInt8 × World)
  status : World → Int

/-- The table `s2n_openssl_rand_method`. -/
def s2n_openssl_rand_method : RAND_METHOD :=
  { seed := openssl_compat_seed
    bytes := openssl_compat_rand
    cleanup := openssl_compat_cleanup
    add := openssl_compat_add
    pseudorand := openssl_compat_rand
    status := openssl_compat_status }

/-! ## Lifecycle -/

/-- The function `s2n_init(err)`; `open_result` is what
`open(ENTROPY_SOURCE, O_RDONLY)` returns. -/
def s2n_init (open_result : Int) (w : World) : Status × World :=
  let w := { w with entropy_fd := open_result }
  if w.entropy_fd = -1 then
    ((-1, some "Could not open entropy source"), w)
  else
    let w := { w with original_rand_method := RAND_get_rand_method w }
    let w := RAND_set_rand_method RandMethodPtr.addr_s2n_openssl_rand_method w
    ((0, none), w)

/-- The function `s2n_cleanup(err)`; `close_result` is what `close(entropy_fd)`
returns. -/
def s2n_cleanup (close_result : Int) (w : World) : Status × World :=
  if w.entropy_fd = -1 then
    ((-1, some "s2n was not initialized"), w)
  else if GUARD_returns close_result then
    ((-1, none), w)
  else
    let w := RAND_set_rand_method w.original_rand_method w
    ((0, none), w)

/-! ## Notions used in the statements -/

/-- Number of bytes obtained by a list of read results: the sum of the positive ones. -/
def obtained (rs : List ReadResult) : Nat := (rs.map (fun res => res.ret.toNat)).sum

/-- The bytes stored by the positive read results of a list, in order. -/
def delivered : List ReadResult → List UInt8
  | [] => []
  | res :: rs => if res.ret ≤ 0 then delivered rs else res.bytes ++ delivered rs

/-- The read calls that a fill of `n` bytes, begun at offset `off`, issues on descriptor
`fd` while it meets the results `rs`: call number `i` has its destination at `off` plus the
bytes obtained by the calls before it, asks for `n` less those bytes, and gets result
number `i`. -/
def expectedReads (fd : Int) (off n : Nat) (rs : List ReadResult) : List ReadCall :=
  (List.range rs.length).map (fun i =>
    { fd := fd, offset := off + obtained (rs.take i), count := n - obtained (rs.take i),
      ret := (rs.getD i { ret := 0, bytes := [] }).ret })

/-- A read result whose positive value is the number of bytes it stored. -/
def ReadResult.wellFormed (res : ReadResult) : Prop :=
  0 < res.ret → (res.bytes.length : Int) = res.ret

/-- The draw number `k` (from 0) of `s2n_random` started in `w` with `r` in the local:
the value of the local after `k + 1` consecutive calls
`s2n_get_random_data((uint8_t *) &r, sizeof(r), err)`, and the world after them. -/
def nthDraw : Nat → List UInt8 → World → Option (Nat × World)
  | 0, r, w =>
    match s2n_get_random_data r 4 w with
    | none => none
    | some (_, r, w) => some (load_uint r, w)
  | k + 1, r, w =>
    match s2n_get_random_data r 4 w with
    | none => none
    | some (_, r, w) => nthDraw k r w

/-- Number of 32-bit values that `s2n_random(max)` accepts and maps to `k`. -/
def acceptedCount (max : Int) (k : Nat) : Nat :=
  ((Finset.range (2 ^ 32)).filter
    (fun r => s2n_random_accepts max r = true ∧ r % to_uint max = k)).card

/-- Number of 32-bit values that `s2n_random(max)` rejects. -/
def rejectedCount (max : Int) : Nat :=
  ((Finset.range (2 ^ 32)).filter (fun r => s2n_random_accepts max r = false)).card

/-- The worlds the process can be in while no `s2n_init` has succeeded yet: the state at
program start, and the states reached from it by calls of `s2n_init` that fail, of
`s2n_cleanup`, and of the read and sample functions. -/
inductive BeforeInit : World → Prop where
  | start (p : RandMethodPtr) (dev : List ReadResult) : BeforeInit (World.initial p dev)
  | init_failed {w : World} (open_result : Int) :
      BeforeInit w → (s2n_init open_result w).1.1 ≠ 0 → BeforeInit (s2n_init open_result w).2
  | cleanup {w : World} (close_result : Int) :
      BeforeInit w → BeforeInit (s2n_cleanup close_result w).2
  | get_random_data {w : World} (data : List UInt8) (n : Nat) (st : Status)
      (data' : List UInt8) (w' : World) :
      BeforeInit w → s2n_get_random_data data n w = some (st, data', w') → BeforeInit w'
  | stuffer_write_random_data {w : World} {σ : Type}
      (recv : σ → Int → Nat → World → Int × Option String × σ × World)
      (fuel : Nat) (stuffer : σ) (n : Nat) (st : Status) (stuffer' : σ) (w' : World) :
      BeforeInit w →
      s2n_stuffer_write_random_data recv fuel stuffer n w = some (st, stuffer', w') →
      BeforeInit w'
  | random {w : World} (max : Int) (r0 : List UInt8) (st : Status) (w' : World) :
      BeforeInit w → s2n_random max r0 w = some (st, w') → BeforeInit w'

/-- An initialised world (descriptor 3) whose device answers with one byte, then an
error, then one byte. -/
def shortReadWorld : World :=
  { entropy_fd := 3, original_rand_method := RandMethodPtr.external 1,
    rand_method := RandMethodPtr.addr_s2n_openssl_rand_method,
    dev := [{ ret := 1, bytes := [7] }, { ret := -1, bytes := [] }, { ret := 1, bytes := [9] }],
    reads := [] }

/-- An initialised world (descriptor 3) whose device delivers the four bytes of
`0xFFFFFFFF` and then the four bytes of `5`. -/
def rejectingWorld : World :=
  { entropy_fd := 3, original_rand_method := RandMethodPtr.external 1,
    rand_method := RandMethodPtr.addr_s2n_openssl_rand_method,
    dev := [{ ret := 4, bytes := [255, 255, 255, 255] }, { ret := 4, bytes := [5, 0, 0, 0] }],
    reads := [] }

/-- The world after `s2n_init` (with `open` giving descriptor 3) and then `s2n_cleanup`
(with `close` giving 0), both from program start with provider `external 7`. -/
def tornDownWorld : World :=
  (s2n_cleanup 0 (s2n_init 3 (World.initial (RandMethodPtr.external 7) [])).2).2

/-! ## Arithmetic of the rejection step -/

theorem to_uint_of_pos (max : Int) (h1 : 1 ≤ max) (h2 : max ≤ INT_MAX) :
    to_uint max = max.toNat ∧ 0 < max.toNat ∧ max.toNat < 2 ^ 31 := by
  unfold INT_MAX at h2
  unfold to_uint
  have h : max % 2 ^ 32 = max := Int.emod_eq_of_lt (by omega) (by omega)
  rw [h]
  omega

theorem threshold_eq (m : Nat) : UINT_MAX - UINT_MAX % m = m * (UINT_MAX / m) := by
  have h := Nat.div_add_mod UINT_MAX m
  omega

theorem card_residue (m q k N : Nat) (hk : k < m) (hN : m * q ≤ N) :
    ((Finset.range N).filter (fun r => r < m * q ∧ r % m = k)).card = q := by
  have hset : (Finset.range N).filter (fun r => r < m * q ∧ r % m = k)
      = (Finset.range q).image (fun j => k + m * j) := by
    ext r
    simp only [Finset.mem_filter, Finset.mem_range, Finset.mem_image]
    constructor
    · rintro ⟨_, hr, hmod⟩
      refine ⟨r / m, Nat.div_lt_of_lt_mul hr, ?_⟩
      have h := Nat.div_add_mod r m
      omega
    · rintro ⟨j, hj, rfl⟩
      have h1 : m * (j + 1) ≤ m * q := Nat.mul_le_mul_left m hj
      have h2 : m * (j + 1) = m * j + m := by ring
      refine ⟨by omega, by omega, ?_⟩
      rw [Nat.add_mul_mod_self_left]
      exact Nat.mod_eq_of_lt hk
  rw [hset, Finset.card_image_of_injective, Finset.card_range]
  intro a b hab
  have hm : 0 < m := by omega
  have : m * a = m * b := by simpa using hab
  exact Nat.eq_of_mul_eq_mul_left hm this

theorem card_not_below (T N : Nat) :
    ((Finset.range N).filter (fun r => ¬ r < T)).card = N - T := by
  have hset : (Finset.range N).filter (fun r => ¬ r < T) = Finset.Ico T N := by
    ext r
    simp only [Finset.mem_filter, Finset.mem_range, Finset.mem_Ico]
    omega
  rw [hset, Nat.card_Ico]

theorem rejectedCount_eq (max : Int) (h1 : 1 ≤ max) (h2 : max ≤ INT_MAX) :
    rejectedCount max = 1 + UINT_MAX % max.toNat := by
  obtain ⟨hu, hpos, hlt⟩ := to_uint_of_pos max h1 h2
  unfold rejectedCount s2n_random_accepts
  rw [hu]
  have hset : (Finset.range (2 ^ 32)).filter
        (fun r : Nat => decide (r < UINT_MAX - UINT_MAX % max.toNat) = false)
      = (Finset.range (2 ^ 32)).filter (fun r : Nat => ¬ r < UINT_MAX - UINT_MAX % max.toNat) :=
    Finset.filter_congr (by intro r _; simp)
  rw [hset, card_not_below]
  have hmod : UINT_MAX % max.toNat < max.toNat := Nat.mod_lt _ hpos
  have hle : UINT_MAX % max.toNat ≤ UINT_MAX := Nat.mod_le _ _
  unfold UINT_MAX at *
  omega

theorem acceptedCount_eq (max : Int) (h1 : 1 ≤ max) (h2 : max ≤ INT_MAX) (k : Nat)
    (hk : k < max.toNat) : acceptedCount max k = UINT_MAX / max.toNat := by
  obtain ⟨hu, hpos, hlt⟩ := to_uint_of_pos max h1 h2
  unfold acceptedCount s2n_random_accepts
  rw [hu, threshold_eq]
  have hset : (Finset.range (2 ^ 32)).filter
        (fun r : Nat => decide (r < max.toNat * (UINT_MAX / max.toNat)) = true
          ∧ r % max.toNat = k)
      = (Finset.range (2 ^ 32)).filter
        (fun r : Nat => r < max.toNat * (UINT_MAX / max.toNat) ∧ r % max.toNat = k) :=
    Finset.filter_congr (by intro r _; simp)
  rw [hset]
  apply card_residue _ _ _ _ hk
  have h := Nat.mul_div_le UINT_MAX max.toNat
  unfold UINT_MAX at *
  omega

/-! ## C2, C9, C10: the rejection step -/

/-- C2: for every `max` with `1 <= max <= INT_MAX` and every `k` in `[0, max)`, the number
of 32-bit values `r` that pass the test `r < UINT_MAX - (UINT_MAX % max)` and have
`r % max = k` is `UINT_MAX / max`, the same positive number for every `k`: the accepted
draws are spread evenly over the residues. -/
theorem s2n_random_accepted_equidistributed (max : Int) (h1 : 1 ≤ max) (h2 : max ≤ INT_MAX)
    (k : Nat) (hk : (k : Int) < max) :
    acceptedCount max k = UINT_MAX / max.toNat ∧ 0 < UINT_MAX / max.toNat := by
  obtain ⟨_, hpos, hlt⟩ := to_uint_of_pos max h1 h2
  refine ⟨acceptedCount_eq max h1 h2 k (by omega), ?_⟩
  apply Nat.div_pos _ hpos
  unfold UINT_MAX
  omega

theorem s2n_random_accepted_equidistributed_witness :
    acceptedCount 3 2 = UINT_MAX / (3 : Int).toNat ∧ 0 < UINT_MAX / (3 : Int).toNat :=
  s2n_random_accepted_equidistributed 3 (by decide) (by decide) 2 (by decide)

/-- C9: for every `max` with `1 <= max <= INT_MAX`, fewer than `2^31` of the `2^32` values
of `r` fail the test `r < UINT_MAX - (UINT_MAX % max)`: less than half of the draws are
discarded. -/
theorem s2n_random_rejects_minority (max : Int) (h1 : 1 ≤ max) (h2 : max ≤ INT_MAX) :
    rejectedCount max < 2 ^ 31 := by
  obtain ⟨_, hpos, hlt⟩ := to_uint_of_pos max h1 h2
  rw [rejectedCount_eq max h1 h2]
  have hmod : UINT_MAX % max.toNat < max.toNat := Nat.mod_lt _ hpos
  omega

theorem s2n_random_rejects_minority_witness : rejectedCount 129 < 2 ^ 31 :=
  s2n_random_rejects_minority 129 (by decide) (by decide)

/-- C10 does not hold of the code: the comment in `s2n_random` promises that at most
`25% - 1` of the values of `r` are discarded, but for `max = 1431655766`, which lies in
`1..INT_MAX`, the test `r < UINT_MAX - (UINT_MAX % max)` rejects `1431655764` of the `2^32`
values of `r`, more than `2^32 / 4 - 1`. -/
theorem s2n_random_rejects_over_quarter :
    (1 : Int) ≤ 1431655766 ∧ (1431655766 : Int) ≤ INT_MAX ∧
      rejectedCount 1431655766 = 1431655764 ∧
      ¬ rejectedCount 1431655766 ≤ 2 ^ 32 / 4 - 1 := by
  have h := rejectedCount_eq 1431655766 (by decide) (by decide)
  have hv : 1 + UINT_MAX % (1431655766 : Int).toNat = 1431655764 := by decide
  rw [hv] at h
  refine ⟨by decide, by decide, h, ?_⟩
  rw [h]
  decide

/-- What the rejection step does discard: for every `max` with `1 <= max <= INT_MAX` the
number of 32-bit values `r` rejected by the test `r < UINT_MAX - (UINT_MAX % max)` is
`1 + UINT_MAX % max`, which never exceeds `1431655764`. -/
theorem rejectedCount_le (max : Int) (h1 : 1 ≤ max) (h2 : max ≤ INT_MAX) :
    rejectedCount max = 1 + UINT_MAX % max.toNat ∧ rejectedCount max ≤ 1431655764 := by
  obtain ⟨_, hpos, hlt⟩ := to_uint_of_pos max h1 h2
  refine ⟨rejectedCount_eq max h1 h2, ?_⟩
  rw [rejectedCount_eq max h1 h2]
  have hmod : UINT_MAX % max.toNat < max.toNat := Nat.mod_lt _ hpos
  have hdm := Nat.div_add_mod UINT_MAX max.toNat
  have hq : 2 ≤ UINT_MAX / max.toNat := by
    rw [Nat.le_div_iff_mul_le hpos]
    unfold UINT_MAX
    omega
  rcases Nat.lt_or_ge (UINT_MAX / max.toNat) 3 with h3 | h3
  · have hq2 : UINT_MAX / max.toNat = 2 := by omega
    rw [hq2] at hdm
    unfold UINT_MAX at *
    omega
  · have hmul : max.toNat * 3 ≤ max.toNat * (UINT_MAX / max.toNat) :=
      Nat.mul_le_mul_left _ h3
    unfold UINT_MAX at *
    omega

/-! ## The lifecycle functions, case by case -/

theorem s2n_init_failure (w : World) (open_result : Int) (h : open_result = -1) :
    s2n_init open_result w
      = ((-1, some "Could not open entropy source"), { w with entropy_fd := -1 }) := by
  subst h
  rfl

theorem s2n_init_success (w : World) (open_result : Int) (h : open_result ≠ -1) :
    s2n_init open_result w
      = ((0, none), { w with entropy_fd := open_result,
                             original_rand_method := w.rand_method,
                             rand_method := RandMethodPtr.addr_s2n_openssl_rand_method }) := by
  simp [s2n_init, h, RAND_get_rand_method, RAND_set_rand_method]

theorem s2n_cleanup_not_initialized (w : World) (close_result : Int)
    (h : w.entropy_fd = -1) :
    s2n_cleanup close_result w = ((-1, some "s2n was not initialized"), w) := by
  simp [s2n_cleanup, h]

theorem s2n_cleanup_close_failure (w : World) (close_result : Int)
    (h : w.entropy_fd ≠ -1) (hc : close_result < 0) :
    s2n_cleanup close_result w = ((-1, none), w) := by
  simp [s2n_cleanup, h, GUARD_returns, hc]

theorem s2n_cleanup_success (w : World) (close_result : Int)
    (h : w.entropy_fd ≠ -1) (hc : ¬ close_result < 0) :
    s2n_cleanup close_result w
      = ((0, none), { w with rand_method := w.original_rand_method }) := by
  simp [s2n_cleanup, h, GUARD_returns, hc, RAND_set_rand_method]

/-! ## The check of `entropy_fd` on entry -/

theorem s2n_get_random_data_closed (data : List UInt8) (n : Nat) (w : World)
    (h : w.entropy_fd = -1) :
    s2n_get_random_data data n w
      = some ((-1, some "s2n_get_random_data() called before s2n_init()"), data, w) := by
  simp [s2n_get_random_data, h]

theorem s2n_random_closed (max : Int) (hmax : 0 < max) (r0 : List UInt8) (w : World)
    (h : w.entropy_fd = -1) :
    s2n_random max r0 w
      = some ((-1, some "s2n_get_random_data() called before s2n_init()"), w) := by
  have hm : ¬ max ≤ 0 := by omega
  simp [s2n_random, hm, s2n_random_loop, s2n_get_random_data_closed _ _ _ h, GUARD_returns]

theorem s2n_get_random_data_open (data : List UInt8) (n : Nat) (w : World)
    (h : w.entropy_fd ≠ -1) :
    s2n_get_random_data data n w
      = (s2n_get_random_data_loop w.entropy_fd w.dev data 0 n w.reads).map
          (fun x => ((0, none), x.1, { w with dev := x.2.1, reads := x.2.2 })) := by
  unfold s2n_get_random_data
  rw [if_neg h]
  cases s2n_get_random_data_loop w.entropy_fd w.dev data 0 n w.reads <;> rfl

/-! ## C3: non-positive bound -/

/-- C3: for every `max <= 0` and every world, whether the entropy descriptor is open or
not, `s2n_random(max)` returns `-1` with the message "max must be a positive value" and
leaves the world as it was: the device and the trace of reads are untouched. -/
theorem s2n_random_nonpositive (max : Int) (h : max ≤ 0) (r0 : List UInt8) (w : World) :
    s2n_random max r0 w = some ((-1, some "max must be a positive value"), w) := by
  simp [s2n_random, h]

theorem s2n_random_nonpositive_witness :
    s2n_random (-5) [0, 0, 0, 0]
        { entropy_fd := 3, original_rand_method := RandMethodPtr.external 1,
          rand_method := RandMethodPtr.addr_s2n_openssl_rand_method,
          dev := [{ ret := 4, bytes := [1, 2, 3, 4] }], reads := [] }
      = some ((-1, some "max must be a positive value"),
        { entropy_fd := 3, original_rand_method := RandMethodPtr.external 1,
          rand_method := RandMethodPtr.addr_s2n_openssl_rand_method,
          dev := [{ ret := 4, bytes := [1, 2, 3, 4] }], reads := [] }) :=
  s2n_random_nonpositive (-5) (by decide) _ _

/-! ## C5: before initialisation -/

theorem BeforeInit.entropy_fd_eq {w : World} (h : BeforeInit w) : w.entropy_fd = -1 := by
  induction h with
  | start p dev => rfl
  | init_failed o _ hfail ih =>
    by_cases ho : o = -1
    · rw [s2n_init_failure _ o ho]
    · rw [s2n_init_success _ o ho] at hfail
      exact absurd rfl hfail
  | cleanup c _ ih =>
    rw [s2n_cleanup_not_initialized _ c ih]
    exact ih
  | get_random_data data n st data' w' _ hcall ih =>
    rw [s2n_get_random_data_closed _ _ _ ih] at hcall
    simp only [Option.some.injEq, Prod.mk.injEq] at hcall
    rw [← hcall.2.2]
    exact ih
  | stuffer_write_random_data recv fuel stuffer n st stuffer' w' _ hcall ih =>
    unfold s2n_stuffer_write_random_data at hcall
    rw [if_pos ih] at hcall
    simp only [Option.some.injEq, Prod.mk.injEq] at hcall
    rw [← hcall.2.2]
    exact ih
  | random max r0 st w' _ hcall ih =>
    by_cases hm : max ≤ 0
    · unfold s2n_random at hcall
      rw [if_pos hm] at hcall
      simp only [Option.some.injEq, Prod.mk.injEq] at hcall
      rw [← hcall.2]
      exact ih
    · rw [s2n_random_closed max (by omega) _ _ ih] at hcall
      simp only [Option.some.injEq, Prod.mk.injEq] at hcall
      rw [← hcall.2]
      exact ih

/-- C5: in every world reached before any successful `s2n_init`, each read or sample
call fails with the message "s2n_get_random_data() called before s2n_init()" (the
not-initialised error) and changes nothing: `s2n_get_random_data` for every buffer and
`n`, `s2n_stuffer_write_random_data` for every stuffer, receive function and `n`, and
`s2n_random` for every `max > 0` return `-1`, the buffer or stuffer is as before, and the
world, with its device and its trace of reads, is unchanged. -/
theorem not_initialized_before_init (w : World) (h : BeforeInit w) :
    (∀ (data : List UInt8) (n : Nat), s2n_get_random_data data n w
        = some ((-1, some "s2n_get_random_data() called before s2n_init()"), data, w)) ∧
    (∀ (σ : Type) (recv : σ → Int → Nat → World → Int × Option String × σ × World)
        (fuel : Nat) (stuffer : σ) (n : Nat),
        s2n_stuffer_write_random_data recv fuel stuffer n w
          = some ((-1, some "s2n_get_random_data() called before s2n_init()"), stuffer, w)) ∧
    (∀ (max : Int) (r0 : List UInt8), 0 < max → s2n_random max r0 w
        = some ((-1, some "s2n_get_random_data() called before s2n_init()"), w)) := by
  have hfd := h.entropy_fd_eq
  refine ⟨fun data n => s2n_get_random_data_closed data n w hfd, ?_, ?_⟩
  · intro σ recv fuel stuffer n
    simp [s2n_stuffer_write_random_data, hfd]
  · intro max r0 hmax
    exact s2n_random_closed max hmax r0 w hfd

theorem not_initialized_before_init_witness :
    BeforeInit (s2n_init (-1) (World.initial (RandMethodPtr.external 1)
        [{ ret := 4, bytes := [1, 2, 3, 4] }])).2 ∧
    s2n_random 10 [0, 0, 0, 0] (s2n_init (-1) (World.initial (RandMethodPtr.external 1)
        [{ ret := 4, bytes := [1, 2, 3, 4] }])).2
      = some ((-1, some "s2n_get_random_data() called before s2n_init()"),
          (s2n_init (-1) (World.initial (RandMethodPtr.external 1)
            [{ ret := 4, bytes := [1, 2, 3, 4] }])).2) :=
  ⟨BeforeInit.init_failed (-1) (BeforeInit.start _ _) (by decide),
   (not_initialized_before_init _
      (BeforeInit.init_failed (-1) (BeforeInit.start _ _) (by decide))).2.2 10 [0, 0, 0, 0]
      (by decide)⟩

/-! ## C7: the provider is restored -/

/-- C7: if `s2n_init` succeeds in a world where the active provider is `p` and the
`s2n_cleanup` that follows it succeeds as well, then between the two calls the active
provider is `&s2n_openssl_rand_method`, and after the cleanup it is `p` again. -/
theorem s2n_init_cleanup_restores_provider (w : World) (open_result close_result : Int)
    (hinit : (s2n_init open_result w).1.1 = 0)
    (hcleanup : (s2n_cleanup close_result (s2n_init open_result w).2).1.1 = 0) :
    RAND_get_rand_method (s2n_init open_result w).2
        = RandMethodPtr.addr_s2n_openssl_rand_method ∧
      RAND_get_rand_method (s2n_cleanup close_result (s2n_init open_result w).2).2
        = RAND_get_rand_method w := by
  have ho : open_result ≠ -1 := by
    intro ho
    rw [s2n_init_failure w open_result ho] at hinit
    simp at hinit
  rw [s2n_init_success w open_result ho] at hcleanup ⊢
  have hc : ¬ close_result < 0 := by
    intro hc
    rw [s2n_cleanup_close_failure _ close_result ho hc] at hcleanup
    simp at hcleanup
  rw [s2n_cleanup_success _ close_result ho hc]
  exact ⟨rfl, rfl⟩

theorem s2n_init_cleanup_restores_provider_witness :
    RAND_get_rand_method (s2n_init 3 (World.initial (RandMethodPtr.external 7) [])).2
        = RandMethodPtr.addr_s2n_openssl_rand_method ∧
      RAND_get_rand_method
          (s2n_cleanup 0 (s2n_init 3 (World.initial (RandMethodPtr.external 7) [])).2).2
        = RAND_get_rand_method (World.initial (RandMethodPtr.external 7) []) :=
  s2n_init_cleanup_restores_provider (World.initial (RandMethodPtr.external 7) []) 3 0
    (by decide) (by decide)

/-! ## C8: the provider's produce-bytes callback -/

/-- C8: `openssl_compat_rand(buf, num)` returns exactly when the call
`s2n_get_random_data(buf, num)` it makes returns, and its result is `0` or `1`: it is `1`
exactly when that call succeeded (returned `0`, having left the same buffer and world),
and `0` exactly when that call failed (returned `-1`), which is exactly when the entropy
descriptor is not open.  The `bytes` and `pseudorand` slots of `s2n_openssl_rand_method`
both hold this function. -/
theorem openssl_compat_rand_contract (buf : List UInt8) (num : Int) (w : World) :
    s2n_openssl_rand_method.bytes = openssl_compat_rand ∧
    s2n_openssl_rand_method.pseudorand = s2n_openssl_rand_method.bytes ∧
    (openssl_compat_rand buf num w = none ↔
      s2n_get_random_data buf (to_uint num) w = none) ∧
    ∀ (v : Int) (buf' : List UInt8) (w' : World),
      openssl_compat_rand buf num w = some (v, buf', w') →
        (v = 0 ∨ v = 1) ∧
        (v = 1 ↔ s2n_get_random_data buf (to_uint num) w = some ((0, none), buf', w')) ∧
        (v = 0 ↔ s2n_get_random_data buf (to_uint num) w
          = some ((-1, some "s2n_get_random_data() called before s2n_init()"), buf', w')) ∧
        (v = 0 ↔ w.entropy_fd = -1) := by
  refine ⟨rfl, rfl, ?_, ?_⟩
  · unfold openssl_compat_rand
    cases s2n_get_random_data buf (to_uint num) w with
    | none => simp
    | some x =>
      obtain ⟨⟨r, e⟩, b, w1⟩ := x
      by_cases hr : r < 0 <;> simp [hr]
  · intro v buf' w' hv
    unfold openssl_compat_rand at hv
    by_cases hfd : w.entropy_fd = -1
    · rw [s2n_get_random_data_closed _ _ _ hfd] at hv ⊢
      simp at hv
      obtain ⟨rfl, rfl, rfl⟩ := hv
      simp [hfd]
    · rw [s2n_get_random_data_open _ _ _ hfd] at hv ⊢
      cases hloop : s2n_get_random_data_loop w.entropy_fd w.dev buf 0 (to_uint num) w.reads with
      | none => simp [hloop] at hv
      | some x =>
        simp [hloop] at hv
        obtain ⟨rfl, rfl, rfl⟩ := hv
        simp [hfd]

theorem openssl_compat_rand_contract_witness :
    ((1 : Int) = 0 ∨ (1 : Int) = 1) ∧
    ((1 : Int) = 1 ↔ s2n_get_random_data [0, 0] (to_uint 2) shortReadWorld
      = some ((0, none), [7, 9],
          { shortReadWorld with
            dev := [],
            reads := [{ fd := 3, offset := 0, count := 2, ret := 1 },
                      { fd := 3, offset := 1, count := 1, ret := -1 },
                      { fd := 3, offset := 1, count := 1, ret := 1 }] })) :=
  ⟨((openssl_compat_rand_contract [0, 0] 2 shortReadWorld).2.2.2 1 [7, 9]
      { shortReadWorld with
        dev := [],
        reads := [{ fd := 3, offset := 0, count := 2, ret := 1 },
                  { fd := 3, offset := 1, count := 1, ret := -1 },
                  { fd := 3, offset := 1, count := 1, ret := 1 }] } (by decide)).1,
   ((openssl_compat_rand_contract [0, 0] 2 shortReadWorld).2.2.2 1 [7, 9]
      { shortReadWorld with
        dev := [],
        reads := [{ fd := 3, offset := 0, count := 2, ret := 1 },
                  { fd := 3, offset := 1, count := 1, ret := -1 },
                  { fd := 3, offset := 1, count := 1, ret := 1 }] } (by decide)).2.1⟩

/-! ## C4: the fill loop -/

theorem obtained_cons (res : ReadResult) (rs : List ReadResult) :
    obtained (res :: rs) = res.ret.toNat + obtained rs := by
  simp [obtained]

theorem obtained_append (xs ys : List ReadResult) :
    obtained (xs ++ ys) = obtained xs + obtained ys := by
  simp [obtained]

theorem obtained_pos_of_last (rs : List ReadResult) (hne : rs ≠ [])
    (hlast : ∀ res, rs.getLast? = some res → 0 < res.ret) : 0 < obtained rs := by
  rcases List.eq_nil_or_concat rs with h | ⟨init, l, h⟩
  · exact absurd h hne
  · subst h
    have hl := hlast l (by simp)
    rw [List.concat_eq_append, obtained_append, obtained_cons]
    omega

theorem expectedReads_cons (fd : Int) (off n : Nat) (res : ReadResult)
    (rs : List ReadResult) :
    expectedReads fd off n (res :: rs)
      = { fd := fd, offset := off, count := n, ret := res.ret }
        :: expectedReads fd (off + res.ret.toNat) (n - res.ret.toNat) rs := by
  unfold expectedReads
  rw [List.length_cons, List.range_succ_eq_map, List.map_cons, List.map_map]
  congr 1
  apply List.map_congr_left
  intro i _
  simp [obtained_cons, Nat.add_assoc, Nat.sub_sub]

theorem store_length (data : List UInt8) (off : Nat) (bytes : List UInt8)
    (h : off + bytes.length ≤ data.length) : (store data off bytes).length = data.length := by
  simp [store]
  omega

theorem store_take (data : List UInt8) (off : Nat) (bytes : List UInt8)
    (h : off ≤ data.length) :
    (store data off bytes).take (off + bytes.length) = data.take off ++ bytes := by
  unfold store
  apply List.take_left'
  simp
  omega

theorem store_drop (data : List UInt8) (off k : Nat) (bytes : List UInt8)
    (h : off ≤ data.length) :
    (store data off bytes).drop (off + bytes.length + k)
      = data.drop (off + bytes.length + k) := by
  unfold store
  have hl : (data.take off ++ bytes).length = off + bytes.length := by
    simp
    omega
  rw [← hl, ← List.drop_drop, List.drop_left, List.drop_drop]

theorem s2n_get_random_data_loop_zero (fd : Int) (dev : List ReadResult)
    (data : List UInt8) (off : Nat) (reads : List ReadCall) :
    s2n_get_random_data_loop fd dev data off 0 reads = some (data, dev, reads) := by
  cases dev <;> rfl

theorem to_uint_sub (n : Nat) (r : Int) (hn : n < 2 ^ 32) (h0 : 0 < r) (hr : r.toNat ≤ n) :
    to_uint ((n : Int) - r) = n - r.toNat := by
  unfold to_uint
  have h : ((n : Int) - r) % 2 ^ 32 = (n : Int) - r :=
    Int.emod_eq_of_lt (by omega) (by omega)
  rw [h]
  omega

theorem s2n_get_random_data_loop_fills (fd : Int) (post : List ReadResult) :
    ∀ (pre : List ReadResult) (data : List UInt8) (off n : Nat) (reads : List ReadCall),
      n < 2 ^ 32 → off + n ≤ data.length → (∀ res ∈ pre, res.wellFormed) →
      obtained pre = n → (∀ res, pre.getLast? = some res → 0 < res.ret) →
      s2n_get_random_data_loop fd (pre ++ post) data off n reads
        = some (data.take off ++ delivered pre ++ data.drop (off + n), post,
            reads ++ expectedReads fd off n pre) := by
  intro pre
  induction pre with
  | nil =>
    intro data off n reads _ _ _ hsum _
    have hn0 : n = 0 := by simpa [obtained] using hsum.symm
    subst hn0
    rw [List.nil_append, s2n_get_random_data_loop_zero]
    simp [delivered, expectedReads]
  | cons res rest ih =>
    intro data off n reads hn hlen hwf hsum hlast
    have hpos := obtained_pos_of_last (res :: rest) (by simp) hlast
    rw [obtained_cons] at hsum hpos
    have hlast' : ∀ x, rest.getLast? = some x → 0 < x.ret := by
      intro x hx
      apply hlast x
      cases rest with
      | nil => simp at hx
      | cons y ys => simpa [List.getLast?_cons_cons] using hx
    have hwf' : ∀ x ∈ rest, x.wellFormed := fun x hx => hwf x (List.mem_cons_of_mem _ hx)
    obtain ⟨m, rfl⟩ : ∃ m, n = m + 1 := ⟨n - 1, by omega⟩
    rw [List.cons_append, s2n_get_random_data_loop, expectedReads_cons]
    by_cases hr : res.ret ≤ 0
    · have ht : res.ret.toNat = 0 := by omega
      simp only [hr, if_true]
      rw [ih data off (m + 1) _ hn hlen hwf' (by omega) hlast']
      simp [delivered, hr, ht]
    · have hbytes : (res.bytes.length : Int) = res.ret := hwf res (by simp) (by omega)
      have hbl : res.bytes.length = res.ret.toNat := by omega
      simp only [hr, if_false]
      rw [to_uint_sub (m + 1) res.ret hn (by omega) (by omega)]
      rw [ih (store data off res.bytes) (off + res.ret.toNat) (m + 1 - res.ret.toNat) _
        (by omega) (by rw [store_length _ _ _ (by omega)]; omega) hwf' (by omega) hlast']
      have h1 := store_take data off res.bytes (by omega)
      have h2 := store_drop data off (m + 1 - res.ret.toNat) res.bytes (by omega)
      rw [hbl] at h1 h2
      rw [h1, h2]
      have h3 : off + res.ret.toNat + (m + 1 - res.ret.toNat) = off + (m + 1) := by omega
      simp [delivered, hr, h3]

/-- C4: let the entropy descriptor be open, `n` a `uint32_t` value, `data` a buffer of at
least `n` bytes, and let the device answer the coming reads with the results `pre` (then
`post`), where every positive result of `pre` stored as many bytes as it reports, the
positive results of `pre` add up to `n` (so each is at most the count still missing), and
`pre` ends with a positive result.  Then `s2n_get_random_data(data, n)` returns `0`
without writing `err`; bytes `0..n-1` of the buffer are the bytes stored by the positive
reads, in order, and the rest of the buffer is as before; the device is left with `post`;
and read number `i` was issued at the offset equal to the sum of the positive results
before it, for the count `n` less that sum, so a non-positive result changes neither.
For `n = 0` the call returns `0` and issues no read, whatever the device holds. -/
theorem s2n_get_random_data_fills (w : World) (data : List UInt8) (n : Nat)
    (pre post : List ReadResult)
    (hfd : w.entropy_fd ≠ -1) (hn : n < 2 ^ 32) (hlen : n ≤ data.length)
    (hdev : w.dev = pre ++ post) (hwf : ∀ res ∈ pre, res.wellFormed)
    (hsum : obtained pre = n) (hlast : ∀ res, pre.getLast? = some res → 0 < res.ret) :
    s2n_get_random_data data n w
        = some ((0, none), delivered pre ++ data.drop n,
            { w with dev := post, reads := w.reads ++ expectedReads w.entropy_fd 0 n pre }) ∧
      (delivered pre).length = n ∧
      s2n_get_random_data data 0 w = some ((0, none), data, w) := by
  refine ⟨?_, ?_, ?_⟩
  · rw [s2n_get_random_data_open _ _ _ hfd, hdev,
      s2n_get_random_data_loop_fills w.entropy_fd post pre data 0 n w.reads hn (by omega)
        hwf hsum hlast]
    simp
  · rw [← hsum]
    clear hsum hlast hdev
    induction pre with
    | nil => rfl
    | cons res rest ih =>
      have ih' := ih (fun x hx => hwf x (List.mem_cons_of_mem _ hx))
      rw [obtained_cons]
      by_cases hr : res.ret ≤ 0
      · have ht : res.ret.toNat = 0 := by omega
        simp [delivered, hr, ht, ih']
      · have hbytes : (res.bytes.length : Int) = res.ret := hwf res (by simp) (by omega)
        simp [delivered, hr, ih']
        omega
  · rw [s2n_get_random_data_open _ _ _ hfd, s2n_get_random_data_loop_zero]
    rfl

theorem s2n_get_random_data_fills_witness :
    s2n_get_random_data [0, 0, 0] 2 shortReadWorld
        = some ((0, none), delivered shortReadWorld.dev ++ [0, 0, 0].drop 2,
            { shortReadWorld with
              dev := [],
              reads := shortReadWorld.reads
                ++ expectedReads shortReadWorld.entropy_fd 0 2 shortReadWorld.dev }) ∧
      (delivered shortReadWorld.dev).length = 2 ∧
      s2n_get_random_data [0, 0, 0] 0 shortReadWorld = some ((0, none), [0, 0, 0], shortReadWorld) :=
  s2n_get_random_data_fills shortReadWorld [0, 0, 0] 2 shortReadWorld.dev [] (by decide)
    (by decide) (by decide) (by decide) (by simp [shortReadWorld, ReadResult.wellFormed])
    (by decide) (by simp [shortReadWorld])

/-! ## C1: the sampler returns the first accepted draw -/

theorem s2n_get_random_data_loop_consumes (fd : Int) :
    ∀ (dev : List ReadResult) (data : List UInt8) (off n : Nat) (reads : List ReadCall)
      (data' : List UInt8) (dev' : List ReadResult) (reads' : List ReadCall),
      s2n_get_random_data_loop fd dev data off n reads = some (data', dev', reads') →
      dev'.length ≤ dev.length ∧ (0 < n → dev'.length < dev.length) := by
  intro dev
  induction dev with
  | nil =>
    intro data off n reads data' dev' reads' h
    cases n with
    | zero =>
      rw [s2n_get_random_data_loop_zero] at h
      simp only [Option.some.injEq, Prod.mk.injEq] at h
      rw [← h.2.1]
      simp
    | succ m => simp [s2n_get_random_data_loop] at h
  | cons res rest ih =>
    intro data off n reads data' dev' reads' h
    cases n with
    | zero =>
      rw [s2n_get_random_data_loop_zero] at h
      simp only [Option.some.injEq, Prod.mk.injEq] at h
      rw [← h.2.1]
      simp
    | succ m =>
      rw [s2n_get_random_data_loop] at h
      by_cases hr : res.ret ≤ 0
      · simp only [hr, if_true] at h
        have := (ih _ _ _ _ _ _ _ h).1
        simp only [List.length_cons]
        omega
      · simp only [hr, if_false] at h
        have := (ih _ _ _ _ _ _ _ h).1
        simp only [List.length_cons]
        omega

theorem s2n_get_random_data_open_some (data : List UInt8) (n : Nat) (w : World)
    (st : Status) (data' : List UInt8) (w' : World) (hfd : w.entropy_fd ≠ -1)
    (h : s2n_get_random_data data n w = some (st, data', w')) :
    st = (0, none) ∧ w'.entropy_fd = w.entropy_fd ∧ (0 < n → w'.dev.length < w.dev.length) := by
  rw [s2n_get_random_data_open _ _ _ hfd] at h
  cases hl : s2n_get_random_data_loop w.entropy_fd w.dev data 0 n w.reads with
  | none => simp [hl] at h
  | some x =>
    obtain ⟨d, dev', reads'⟩ := x
    simp only [hl, Option.map_some', Option.some.injEq, Prod.mk.injEq] at h
    obtain ⟨h1, _, h3⟩ := h
    have hc := s2n_get_random_data_loop_consumes _ _ _ _ _ _ _ _ _ hl
    subst h3
    exact ⟨h1.symm, rfl, hc.2⟩

theorem to_int_mod (r : Nat) (max : Int) (h1 : 1 ≤ max) (h2 : max ≤ INT_MAX) :
    to_int (r % to_uint max) = (r : Int) % max ∧ 0 ≤ (r : Int) % max ∧ (r : Int) % max < max := by
  obtain ⟨hu, hpos, hlt⟩ := to_uint_of_pos max h1 h2
  have hm : r % max.toNat < max.toNat := Nat.mod_lt _ hpos
  have hmax : ((max.toNat : Nat) : Int) = max := Int.toNat_of_nonneg (by omega)
  have hcast : ((r % max.toNat : Nat) : Int) = (r : Int) % max := by
    rw [Int.natCast_mod, hmax]
  rw [hu]
  unfold to_int
  have hs : r % max.toNat % 2 ^ 32 = r % max.toNat := Nat.mod_eq_of_lt (by omega)
  rw [hs, if_pos (by omega), hcast]
  refine ⟨rfl, ?_, ?_⟩
  · rw [← hcast]
    omega
  · rw [← hcast]
    omega

theorem s2n_random_loop_sound (max : Int) (h1 : 1 ≤ max) (h2 : max ≤ INT_MAX) :
    ∀ (fuel : Nat) (r0 : List UInt8) (w : World) (st : Status) (w' : World),
      w.entropy_fd ≠ -1 → s2n_random_loop max fuel r0 w = some (st, w') →
      ∃ k r, nthDraw k r0 w = some (r, w') ∧ s2n_random_accepts max r = true ∧
        (∀ j, j < k → ∃ rj wj, nthDraw j r0 w = some (rj, wj) ∧
          s2n_random_accepts max rj = false) ∧
        st = ((r : Int) % max, none) := by
  intro fuel
  induction fuel with
  | zero =>
    intro r0 w st w' _ h
    simp [s2n_random_loop] at h
  | succ fuel ih =>
    intro r0 w st w' hfd h
    rw [s2n_random_loop] at h
    cases hg : s2n_get_random_data r0 4 w with
    | none => simp [hg] at h
    | some x =>
      obtain ⟨⟨c, e⟩, r1, w1⟩ := x
      obtain ⟨hst, hfd1, _⟩ := s2n_get_random_data_open_some _ _ _ _ _ _ hfd hg
      simp only [Prod.mk.injEq] at hst
      obtain ⟨rfl, rfl⟩ := hst
      simp only [hg, GUARD_returns] at h
      rw [if_neg (by decide)] at h
      by_cases hacc : s2n_random_accepts max (load_uint r1) = true
      · rw [if_pos hacc] at h
        simp only [Option.some.injEq, Prod.mk.injEq] at h
        obtain ⟨h3, h4⟩ := h
        subst h4
        refine ⟨0, load_uint r1, by simp [nthDraw, hg], hacc, ?_, ?_⟩
        · intro j hj
          omega
        · rw [← h3, (to_int_mod _ max h1 h2).1]
      · rw [if_neg hacc] at h
        obtain ⟨k, r, hk, hr, hbefore, hstk⟩ := ih r1 w1 st w' (by rw [hfd1]; exact hfd) h
        refine ⟨k + 1, r, by simp [nthDraw, hg, hk], hr, ?_, hstk⟩
        intro j hj
        cases j with
        | zero => exact ⟨load_uint r1, w1, by simp [nthDraw, hg], by simpa using hacc⟩
        | succ j =>
          obtain ⟨rj, wj, hj1, hj2⟩ := hbefore j (by omega)
          exact ⟨rj, wj, by simp [nthDraw, hg, hj1], hj2⟩

theorem s2n_random_loop_complete (max : Int) (h1 : 1 ≤ max) (h2 : max ≤ INT_MAX) :
    ∀ (k fuel : Nat) (r0 : List UInt8) (w : World) (r : Nat) (w' : World),
      w.entropy_fd ≠ -1 → w.dev.length < fuel →
      nthDraw k r0 w = some (r, w') → s2n_random_accepts max r = true →
      (∀ j, j < k → ∃ rj wj, nthDraw j r0 w = some (rj, wj) ∧
        s2n_random_accepts max rj = false) →
      s2n_random_loop max fuel r0 w = some (((r : Int) % max, none), w') := by
  intro k
  induction k with
  | zero =>
    intro fuel r0 w r w' hfd hfuel hk hacc _
    obtain ⟨f, rfl⟩ : ∃ f, fuel = f + 1 := ⟨fuel - 1, by omega⟩
    rw [s2n_random_loop]
    rw [nthDraw] at hk
    cases hg : s2n_get_random_data r0 4 w with
    | none => simp [hg] at hk
    | some x =>
      obtain ⟨⟨c, e⟩, r1, w1⟩ := x
      obtain ⟨hst, _, _⟩ := s2n_get_random_data_open_some _ _ _ _ _ _ hfd hg
      simp only [Prod.mk.injEq] at hst
      obtain ⟨rfl, rfl⟩ := hst
      simp only [hg, Option.some.injEq, Prod.mk.injEq] at hk
      obtain ⟨rfl, rfl⟩ := hk
      simp only [GUARD_returns]
      rw [if_neg (by decide), if_pos hacc, (to_int_mod _ max h1 h2).1]
  | succ k ih =>
    intro fuel r0 w r w' hfd hfuel hk hacc hbefore
    obtain ⟨f, rfl⟩ : ∃ f, fuel = f + 1 := ⟨fuel - 1, by omega⟩
    rw [s2n_random_loop]
    rw [nthDraw] at hk
    cases hg : s2n_get_random_data r0 4 w with
    | none => simp [hg] at hk
    | some x =>
      obtain ⟨⟨c, e⟩, r1, w1⟩ := x
      obtain ⟨hst, hfd1, hdev⟩ := s2n_get_random_data_open_some _ _ _ _ _ _ hfd hg
      simp only [Prod.mk.injEq] at hst
      obtain ⟨rfl, rfl⟩ := hst
      simp only [hg] at hk
      obtain ⟨rj, wj, hj1, hj2⟩ := hbefore 0 (by omega)
      simp only [nthDraw, hg, Option.some.injEq, Prod.mk.injEq] at hj1
      obtain ⟨rfl, rfl⟩ := hj1
      simp only [GUARD_returns]
      rw [if_neg (by decide), if_neg (by simp [hj2])]
      apply ih f r1 w1 r w' (by rw [hfd1]; exact hfd) (by have := hdev (by decide); omega)
        hk hacc
      intro j hj
      obtain ⟨rj, wj, hj1, hj2⟩ := hbefore (j + 1) (by omega)
      exact ⟨rj, wj, by simpa [nthDraw, hg] using hj1, hj2⟩

/-- C1: let `1 <= max <= INT_MAX` and let the entropy descriptor be open.  Whenever
`s2n_random(max)` returns, some draw `k` gave a value `r` below
`UINT_MAX - (UINT_MAX % max)`, every draw before it gave a value not below it, the world
is the one left by draw `k`, no message was written to `err`, and the value returned is
`r % max`, which lies in `[0, max)` and so is not `-1`.  Conversely, as soon as the device
lets some draw `k` give a value below the threshold after earlier draws that were all
rejected, the call does return, with `r % max`. -/
theorem s2n_random_first_accepted (max : Int) (h1 : 1 ≤ max) (h2 : max ≤ INT_MAX)
    (r0 : List UInt8) (w : World) (hfd : w.entropy_fd ≠ -1) :
    (∀ (st : Status) (w' : World), s2n_random max r0 w = some (st, w') →
      ∃ k r, nthDraw k r0 w = some (r, w') ∧ s2n_random_accepts max r = true ∧
        (∀ j, j < k → ∃ rj wj, nthDraw j r0 w = some (rj, wj) ∧
          s2n_random_accepts max rj = false) ∧
        st = ((r : Int) % max, none) ∧ 0 ≤ st.1 ∧ st.1 < max ∧ st.1 ≠ -1) ∧
    (∀ (k r : Nat) (w' : World), nthDraw k r0 w = some (r, w') →
      s2n_random_accepts max r = true →
      (∀ j, j < k → ∃ rj wj, nthDraw j r0 w = some (rj, wj) ∧
        s2n_random_accepts max rj = false) →
      s2n_random max r0 w = some (((r : Int) % max, none), w')) := by
  have hm : ¬ max ≤ 0 := by omega
  constructor
  · intro st w' h
    unfold s2n_random at h
    rw [if_neg hm] at h
    obtain ⟨k, r, hk, hr, hbefore, hst⟩ := s2n_random_loop_sound max h1 h2 _ r0 w st w' hfd h
    have hb := to_int_mod r max h1 h2
    refine ⟨k, r, hk, hr, hbefore, hst, ?_, ?_, ?_⟩
    · rw [hst]; exact hb.2.1
    · rw [hst]; exact hb.2.2
    · rw [hst]
      have := hb.2.1
      show (r : Int) % max ≠ -1
      omega
  · intro k r w' hk hr hbefore
    unfold s2n_random
    rw [if_neg hm]
    exact s2n_random_loop_complete max h1 h2 k _ r0 w r w' hfd (by omega) hk hr hbefore

theorem s2n_random_first_accepted_witness :
    ∃ k r, nthDraw k [0, 0, 0, 0] rejectingWorld
          = some (r, { rejectingWorld with
                       dev := [],
                       reads := [{ fd := 3, offset := 0, count := 4, ret := 4 },
                                 { fd := 3, offset := 0, count := 4, ret := 4 }] }) ∧
        s2n_random_accepts 3 r = true ∧
        (∀ j, j < k → ∃ rj wj, nthDraw j [0, 0, 0, 0] rejectingWorld = some (rj, wj) ∧
          s2n_random_accepts 3 rj = false) ∧
        ((2 : Int), (none : Option String)) = ((r : Int) % 3, none) ∧
        0 ≤ ((2 : Int), (none : Option String)).1 ∧
        ((2 : Int), (none : Option String)).1 < 3 ∧
        ((2 : Int), (none : Option String)).1 ≠ -1 :=
  (s2n_random_first_accepted 3 (by decide) (by decide) [0, 0, 0, 0] rejectingWorld
    (by decide)).1 (2, none)
    { rejectingWorld with
      dev := [],
      reads := [{ fd := 3, offset := 0, count := 4, ret := 4 },
                { fd := 3, offset := 0, count := 4, ret := 4 }] } (by decide)

/-! ## C6: use after teardown -/

/-- C6 does not hold of the code: `s2n_cleanup` leaves `entropy_fd` at the descriptor it
closed.  After a successful `s2n_init` (descriptor 3) and a successful `s2n_cleanup`,
`entropy_fd` is still 3; `s2n_get_random_data` for one byte then issues `read(3, ...)`:
it keeps retrying while the reads fail, and returns success once a read delivers; a second
`s2n_cleanup` calls `close(3)` again and returns that call's outcome, without the message
"s2n was not initialized". -/
theorem s2n_cleanup_keeps_entropy_fd :
    (s2n_init 3 (World.initial (RandMethodPtr.external 7) [])).1 = (0, none) ∧
    (s2n_cleanup 0 (s2n_init 3 (World.initial (RandMethodPtr.external 7) [])).2).1
      = (0, none) ∧
    tornDownWorld.entropy_fd = 3 ∧
    s2n_get_random_data [0] 1
        { tornDownWorld with dev := [{ ret := -1, bytes := [] }, { ret := -1, bytes := [] }] }
      = none ∧
    s2n_get_random_data [0] 1
        { tornDownWorld with dev := [{ ret := -1, bytes := [] }, { ret := 1, bytes := [42] }] }
      = some ((0, none), [42],
          { tornDownWorld with
            dev := [],
            reads := [{ fd := 3, offset := 0, count := 1, ret := -1 },
                      { fd := 3, offset := 0, count := 1, ret := 1 }] }) ∧
    s2n_cleanup (-1) tornDownWorld = ((-1, none), tornDownWorld) ∧
    (s2n_cleanup 0 tornDownWorld).1 = (0, none) := by
  decide

end S2N
